import Mathlib

/-!
# Verification of the spreadsheet-to-JSON conversion pipelines

Shallow embedding of the two Python source files of this repository:

* `convert_excel.py` — the indentation-driven pipeline:
  `read_value_sheet` (row extraction), `build_json_from_value_sheet`
  (hierarchy assembly with a pre-pass child scan), and
  `generate_volume_from_value` / `walk_and_convert` (derived volume
  synthesis with a seeded pseudo-random multiplier per node).
* `generate_solar_data.py` — the column-driven pipeline:
  `parse_section` (row extraction), `build_json` / `build_volume_json`
  (hierarchy assembly and rounding), and the
  "Middle East & Africa" label-normalization rule.

Python numbers are modelled as `ℚ`; Python `round` (banker's rounding,
round-half-to-even) is modelled exactly on `ℚ`.  Python `dict`s are
modelled as insertion-ordered association lists where assignment to an
existing key replaces the value in place and assignment to a fresh key
appends.  The library PRNG is modelled as a stream of unit draws
`g : Nat → ℚ` together with a position counter; `random.uniform a b` is
`a + (b - a) * g n` (which is exactly CPython's definition of `uniform`
in terms of `random()`), consuming one draw.
-/

set_option maxHeartbeats 1000000

/-- Python `round(q)` with no digits: round half to even, as an integer. -/
def pyRoundInt (q : ℚ) : ℤ :=
  let f := ⌊q⌋
  let r := q - f
  if r < 1/2 then f
  else if 1/2 < r then f + 1
  else if 2 ∣ f then f else f + 1

/-- Python `round(q)` as a rational number. -/
def pyRound (q : ℚ) : ℚ := (pyRoundInt q : ℚ)

/-- Python `round(q, 1)`: round half to even at one decimal place. -/
def pyRound1 (q : ℚ) : ℚ := (pyRoundInt (q * 10) : ℚ) / 10

/-- JSON-like values as built by both pipelines: numbers and
insertion-ordered objects (Python `dict`s). -/
inductive JVal where
  | num : ℚ → JVal
  | obj : List (String × JVal) → JVal

/-- An insertion-ordered JSON object (the content of a Python `dict`). -/
abbrev JObj := List (String × JVal)

/-- Python `k in d`. -/
def hasKey (o : JObj) (k : String) : Bool :=
  o.any (fun kv => kv.1 == k)

/-- Python `d[k] = v`: replace the value in place when the key exists,
append otherwise. -/
def setKey : JObj → String → JVal → JObj
  | [], k, v => [(k, v)]
  | kv :: rest, k, v => if kv.1 = k then (kv.1, v) :: rest else kv :: setKey rest k v

/-- Mutate the object stored at key `k` (a no-op when the key is absent or
holds a number — in the embedded code every use is on a present object
key, matching the Python aliasing `geo_data = result[geo][seg]`). -/
def modifyObj : JObj → String → (JObj → JObj) → JObj
  | [], _, _ => []
  | kv :: rest, k, f =>
    if kv.1 = k then
      (match kv.2 with
       | .obj kvs => (kv.1, JVal.obj (f kvs))
       | v => (kv.1, v)) :: rest
    else kv :: modifyObj rest k f

/-- A row as produced by `read_value_sheet`: label, indentation level, and
the per-year mapping (`None` when no year cell had a real value). -/
structure XRow where
  label : String
  indent : Nat
  year_data : Option (List (String × ℚ))

/-- Python truthiness of `row['year_data']`: `None` and the empty dict are
falsy. -/
def truthyYD : Option (List (String × ℚ)) → Bool
  | none => false
  | some d => !d.isEmpty

/-- The inner scan loop of the pre-pass (`convert_excel.py` lines 101-106):
starting just after an indent-2 row, is there an indent-3 row before any
row of indentation 2 or shallower? -/
def lookahead : List XRow → Bool
  | [] => false
  | r :: rs => if r.indent = 3 then true else if r.indent ≤ 2 then false else lookahead rs

/-- The pre-pass of `build_json_from_value_sheet` (lines 97-110): collect
the `(geography, segment-type, sub-segment)` triples that have indent-3
children.  The scan variables `current_geo_scan` / `current_seg_scan` are
Python locals first assigned inside the loop; reading one before its first
assignment raises `UnboundLocalError`, modelled by `Except.error`. -/
def prePassAux (geo seg : Option String) (acc : List (String × String × String)) :
    List XRow → Except Unit (List (String × String × String))
  | [] => .ok acc
  | r :: rs =>
    if r.indent = 2 ∧ truthyYD r.year_data = true then
      if lookahead rs then
        match geo, seg with
        | some g, some s => prePassAux geo seg ((g, s, r.label) :: acc) rs
        | _, _ => .error ()
      else prePassAux geo seg acc rs
    else if r.indent = 0 then prePassAux (some r.label) seg acc rs
    else if r.indent = 1 then prePassAux geo (some r.label) acc rs
    else prePassAux geo seg acc rs

/-- The pre-pass, starting with both scan variables unassigned. -/
def prePass (rows : List XRow) : Except Unit (List (String × String × String)) :=
  prePassAux none none [] rows

/-- The fold state of the main pass: the result object under construction
and the current geography / segment-type / sub-segment context. -/
structure BState where
  result : JObj
  geo : Option String
  seg : Option String
  sub : Option String

/-- A year mapping as a JSON object of numbers. -/
def ydToObj (yd : List (String × ℚ)) : JObj :=
  yd.map (fun kv => (kv.1, JVal.num kv.2))

/-- One iteration of the main loop of `build_json_from_value_sheet`
(lines 116-172), given the pre-pass set `ch`. -/
def mainStep (ch : List (String × String × String)) (st : BState) (r : XRow) : BState :=
  if r.indent = 0 then
    { result := if hasKey st.result r.label then st.result
                else st.result ++ [(r.label, JVal.obj [])],
      geo := some r.label, seg := none, sub := none }
  else
    match st.geo with
    | none => st
    | some g =>
      if r.indent = 1 then
        { result := modifyObj st.result g (fun go =>
            if hasKey go r.label then go else go ++ [(r.label, JVal.obj [])]),
          geo := some g, seg := some r.label, sub := none }
      else
        match st.seg with
        | none => st
        | some sg =>
          if r.indent = 2 then
            match r.year_data with
            | none => { st with sub := some r.label }
            | some yd =>
              if (g, sg, r.label) ∈ ch then
                { st with
                  sub := some r.label
                  result := modifyObj st.result g (fun go => modifyObj go sg (fun gd =>
                    let gd1 := if hasKey gd r.label then gd
                               else gd ++ [(r.label, JVal.obj [])]
                    modifyObj gd1 r.label (fun node =>
                      yd.foldl (fun acc kv => setKey acc kv.1 (JVal.num kv.2)) node))) }
              else
                { st with
                  sub := some r.label
                  result := modifyObj st.result g (fun go => modifyObj go sg (fun gd =>
                    setKey gd r.label (JVal.obj (ydToObj yd)))) }
          else if r.indent = 3 then
            match st.sub, r.year_data with
            | some sb, some yd =>
              { st with result := modifyObj st.result g (fun go => modifyObj go sg (fun gd =>
                  let gd1 := if hasKey gd sb then gd else gd ++ [(sb, JVal.obj [])]
                  modifyObj gd1 sb (fun node =>
                    setKey node r.label (JVal.obj (ydToObj yd))))) }
            | _, _ => st
          else st

/-- `build_json_from_value_sheet` (`convert_excel.py` lines 60-174): run the
pre-pass, then fold the main pass over the rows in document order. -/
def build_json_from_value_sheet (rows : List XRow) : Except Unit JObj :=
  (prePass rows).map (fun ch => (rows.foldl (mainStep ch) ⟨[], none, none, none⟩).result)

/-- The row sequence of the C1 scenario. -/
def c1Rows : List XRow :=
  [⟨"Global", 0, none⟩, ⟨"By Product", 1, none⟩,
   ⟨"Combo Products", 2, some [("2021", 100)]⟩,
   ⟨"Inhalers", 3, some [("2021", 60)]⟩,
   ⟨"Pumps", 3, some [("2021", 40)]⟩]

/-- The tree the C1 scenario must produce. -/
def c1Expected : JObj :=
  [("Global", JVal.obj [("By Product", JVal.obj [("Combo Products", JVal.obj
     [("2021", JVal.num 100),
      ("Inhalers", JVal.obj [("2021", JVal.num 60)]),
      ("Pumps", JVal.obj [("2021", JVal.num 40)])])])])]

/-! ## Row extraction of `read_value_sheet` (`convert_excel.py` lines 36-54) -/

/-- `YEARS = list(range(2021, 2034))`. -/
def YEARS : List Nat := (List.range 13).map (fun i => 2021 + i)

/-- The year-data part of `read_value_sheet` (lines 37-45): a present cell
is rounded to one decimal and marks the row as having data; an absent cell
records an explicit zero. -/
def read_year_data (cells : Nat → Option ℚ) : List (String × ℚ) × Bool :=
  YEARS.enum.foldl (fun acc p =>
    match cells p.1 with
    | some v => (acc.1 ++ [(toString p.2, pyRound1 v)], true)
    | none => (acc.1 ++ [(toString p.2, (0 : ℚ))], acc.2)) ([], false)

/-- Drop leading whitespace characters. -/
def dropLeadingWS : List Char → List Char
  | [] => []
  | c :: cs => if c.isWhitespace then dropLeadingWS cs else c :: cs

/-- Python `s.strip()`: drop whitespace from both ends. -/
def pyStrip (s : String) : String :=
  String.mk (dropLeadingWS (dropLeadingWS s.toList).reverse).reverse

/-- One row record as appended by `read_value_sheet` (lines 47-54):
`year_data` is the mapping when some year had a real value, `None`
otherwise. -/
def read_value_sheet_row (label : String) (indent : Nat) (cells : Nat → Option ℚ) : XRow :=
  let yd := read_year_data cells
  { label := pyStrip label, indent := indent,
    year_data := if yd.2 then some yd.1 else none }

/-! ## Derived volume synthesis (`convert_excel.py` lines 177-239) -/

/-- Python `str(k).isdigit()` on the keys used by the pipelines. -/
def isYearKey (s : String) : Bool := !s.isEmpty && s.toList.all Char.isDigit

/-- Python `isinstance(v, dict)`. -/
def isDictVal : JVal → Bool
  | .obj _ => true
  | .num _ => false

/-- Python `isinstance(v, (int, float))`. -/
def isNumVal : JVal → Bool
  | .num _ => true
  | .obj _ => false

/-- `any(str(k).isdigit() for k in node.keys())`. -/
def hasYearData (kvs : JObj) : Bool := kvs.any (fun kv => isYearKey kv.1)

/-- `any(isinstance(v, dict) for v in node.values())`. -/
def hasChildren (kvs : JObj) : Bool := kvs.any (fun kv => isDictVal kv.2)

/-- `next((v for k, v in node.items() if str(k).isdigit() and
isinstance(v, (int, float))), 1)`. -/
def firstNumVal (kvs : JObj) : ℚ :=
  match kvs.find? (fun kv => isYearKey kv.1 && isNumVal kv.2) with
  | some kv => match kv.2 with
    | .num q => q
    | .obj _ => 1
  | none => 1

/-- `random.uniform(a, b)`: `a + (b - a) * random()`, consuming one unit
draw `g n` of the stream and advancing the position. -/
def uniform (g : Nat → ℚ) (n : Nat) (a b : ℚ) : ℚ × Nat := (a + (b - a) * g n, n + 1)

/-- The magnitude-bucketed factor draw (lines 207-212 and 219-224). -/
def pickFactor (g : Nat → ℚ) (n : Nat) (base_val : ℚ) : ℚ × Nat :=
  if base_val > 10000 then uniform g n 400 800
  else if base_val > 1000 then uniform g n 800 1500
  else uniform g n 1500 3000

/-- `round(v * factor) if isinstance(v, (int, float)) else v`. -/
def scaleEntry (factor : ℚ) : JVal → JVal
  | .num q => .num (pyRound (q * factor))
  | .obj kvs => .obj kvs

mutual

/-- `walk_and_convert` (lines 196-237), with the RNG stream `g` and the
current draw position threaded explicitly. -/
def walk_and_convert (g : Nat → ℚ) : JVal → Nat → JVal × Nat
  | .num q, n => (.num q, n)
  | .obj kvs, n =>
    if hasYearData kvs && !hasChildren kvs then
      let p := pickFactor g n (firstNumVal kvs)
      (.obj (kvs.map (fun kv => (kv.1, scaleEntry p.1 kv.2))), p.2)
    else if hasYearData kvs && hasChildren kvs then
      let p := pickFactor g n (firstNumVal kvs)
      let r := walkMixed g p.1 kvs p.2
      (.obj r.1, r.2)
    else
      let r := walkChildren g kvs n
      (.obj r.1, r.2)

/-- The entry loop of the mixed branch (lines 225-233): one factor for the
node's own numbers, child dicts recursed in document order. -/
def walkMixed (g : Nat → ℚ) (factor : ℚ) : JObj → Nat → JObj × Nat
  | [], n => ([], n)
  | (k, JVal.num q) :: rest, n =>
    let r := walkMixed g factor rest n
    ((k, JVal.num (pyRound (q * factor))) :: r.1, r.2)
  | (k, JVal.obj ckvs) :: rest, n =>
    let c := walk_and_convert g (JVal.obj ckvs) n
    let r := walkMixed g factor rest c.2
    ((k, c.1) :: r.1, r.2)

/-- The pure-container branch (line 237): recurse into every value. -/
def walkChildren (g : Nat → ℚ) : JObj → Nat → JObj × Nat
  | [], n => ([], n)
  | (k, v) :: rest, n =>
    let c := walk_and_convert g v n
    let r := walkChildren g rest c.2
    ((k, c.1) :: r.1, r.2)

end

/-- `generate_volume_from_value` (lines 177-239): `random.seed(42)` fixes
the draw stream, then the tree is walked from position `0`.
`randomStream s` is the unit-draw stream the library PRNG produces after
`random.seed(s)`. -/
def generate_volume_from_value (randomStream : Nat → Nat → ℚ) (value_data : JVal) : JVal :=
  (walk_and_convert (randomStream 42) value_data 0).1

/-! ## The column-driven pipeline (`generate_solar_data.py`) -/

/-- A parsed record of `parse_section`. -/
structure SRec where
  region : String
  segment : String
  subsegment : String
  values : List (String × ℚ)

/-- A raw sheet row as seen by `parse_section`: the three label cells
(`None`/falsy modelled as `none`, otherwise the cell's string) and the
year cells from column 3 on.  A year cell is `none` when the cell is
`None`, `some none` when `float()` on it raises, and `some (some q)` when
it parses to `q`. -/
structure SRow where
  c0 : Option String
  c1 : Option String
  c2 : Option String
  cells : List (Option (Option ℚ))

/-- `str(cell).strip() if cell else ""`. -/
def strField : Option String → String
  | none => ""
  | some s => pyStrip s

/-- The year loop of `parse_section` (lines 85-92): keep the years whose
cell is present and parses, skip the rest. -/
def collectVals (years : List String) (cells : List (Option (Option ℚ))) : List (String × ℚ) :=
  years.enum.foldl (fun acc p =>
    match cells.getD p.1 none with
    | some (some q) => acc ++ [(p.2, q)]
    | _ => acc) []

/-- One iteration of `parse_section` (lines 74-100): blank or header rows
yield no record; otherwise a record is produced when at least one year
parsed. -/
def parse_section_row (years : List String) (r : SRow) : Option SRec :=
  let region := strField r.c0
  let segment := strField r.c1
  let subsegment := strField r.c2
  if region = "" ∨ segment = "" ∨ subsegment = "" then none
  else if region = "Region" ∨ region = "Volume" then none
  else
    let values := collectVals years r.cells
    if values.isEmpty then none
    else some ⟨region, segment, subsegment, values⟩

/-- `parse_section` over its slice of rows. -/
def parse_section (years : List String) (rows : List SRow) : List SRec :=
  rows.foldl (fun acc r =>
    match parse_section_row years r with
    | some record => acc ++ [record]
    | none => acc) []

/-- `GEO_HIERARCHY` (lines 18-24). -/
def GEO_HIERARCHY : List (String × List String) :=
  [("North America", ["U.S.", "Canada"]),
   ("Europe", ["U.K.", "Germany", "Italy", "France", "Spain", "Russia", "Rest of Europe"]),
   ("Asia Pacific", ["China", "India", "Japan", "South Korea", "ASEAN", "Australia",
                     "Rest of Asia Pacific"]),
   ("Latin America", ["Brazil", "Argentina", "Mexico", "Rest of Latin America"]),
   ("Middle East & Africa", ["GCC", "South Africa", "Rest of Middle East & Africa"])]

/-- `REGIONS = list(GEO_HIERARCHY.keys())`. -/
def REGIONS : List String := GEO_HIERARCHY.map Prod.fst

/-- `ALL_COUNTRIES`, extended region by region. -/
def ALL_COUNTRIES : List String := GEO_HIERARCHY.foldl (fun acc p => acc ++ p.2) []

/-- `pat p s`: Python `p == t && ... `, does the text start with the pattern? -/
def charSeqStartsWith : List Char → List Char → Bool
  | [], _ => true
  | _ :: _, [] => false
  | p :: ps, t :: ts => p == t && charSeqStartsWith ps ts

/-- Does the pattern occur as a contiguous substring of the text? -/
def charSeqContains (pat : List Char) : List Char → Bool
  | [] => charSeqStartsWith pat []
  | t :: ts => charSeqStartsWith pat (t :: ts) || charSeqContains pat ts

/-- Python `pat in s` on strings. -/
def strContains (s pat : String) : Bool := charSeqContains pat.toList s.toList

/-- Python `s.lower()`. -/
def strLower (s : String) : String := s.map Char.toLower

/-- The label-normalization rule of `build_json` / `build_volume_json`
(lines 192-194 and 262-264): any sub-segment containing both
"middle east" and "africa" case-insensitively becomes the canonical
"Middle East & Africa". -/
def normalizeLabel (subseg : String) : String :=
  if strContains (strLower subseg) "middle east" && strContains (strLower subseg) "africa" then
    "Middle East & Africa"
  else subseg

/-- `region_records` grouping (lines 150-155 / 224-229): an
insertion-ordered dict of lists, appending each record to its region. -/
def addToGroup : List (String × List SRec) → String → SRec → List (String × List SRec)
  | [], k, r => [(k, [r])]
  | kv :: rest, k, r =>
    if kv.1 = k then (kv.1, kv.2 ++ [r]) :: rest else kv :: addToGroup rest k r

/-- Group the flat records by their region, in insertion order. -/
def groupByRegion (records : List SRec) : List (String × List SRec) :=
  records.foldl (fun acc r => addToGroup acc r.region r) []

/-- The `rounded_values` loop: keep the years present in the record, in
header order, rounded with `rnd`. -/
def roundedVals (rnd : ℚ → ℚ) (years : List String) (vals : List (String × ℚ)) :
    List (String × ℚ) :=
  years.foldl (fun acc yr =>
    match vals.lookup yr with
    | some v => acc ++ [(yr, rnd v)]
    | none => acc) []

/-- Common body of `build_json` (lines 118-217) and `build_volume_json`
(lines 220-287): the two Python functions are line-for-line identical
except for the rounding applied to year values, abstracted here as `rnd`. -/
def build_json_gen (rnd : ℚ → ℚ) (records : List SRec) (years : List String) : JObj :=
  let region_records := groupByRegion records
  let all_geos := ["Global"] ++ REGIONS ++ ALL_COUNTRIES
  all_geos.foldl (fun data geo =>
    match region_records.lookup geo with
    | none => data
    | some geo_recs =>
      let data1 := setKey data geo (JVal.obj [])
      let data2 := geo_recs.foldl (fun d r =>
        if r.segment = "By Region" ∨ r.segment = "By Country" then d
        else
          modifyObj d geo (fun go =>
            let go1 := if hasKey go r.segment then go else go ++ [(r.segment, JVal.obj [])]
            modifyObj go1 r.segment (fun so =>
              setKey so r.subsegment (JVal.obj (ydToObj (roundedVals rnd years r.values))))))
        data1
      let data3 :=
        if geo = "Global" then
          let by_region := geo_recs.foldl (fun br r =>
            if r.segment = "By Region" then
              setKey br (normalizeLabel r.subsegment)
                (JVal.obj (ydToObj (roundedVals rnd years r.values)))
            else br) ([] : JObj)
          if by_region.isEmpty then data2
          else modifyObj data2 "Global" (fun go => setKey go "By Region" (JVal.obj by_region))
        else data2
      if geo ∈ REGIONS then
        let by_country := geo_recs.foldl (fun bc r =>
          if r.segment = "By Country" then
            setKey bc r.subsegment (JVal.obj (ydToObj (roundedVals rnd years r.values)))
          else bc) ([] : JObj)
        if by_country.isEmpty then data3
        else modifyObj data3 geo (fun go => setKey go "By Country" (JVal.obj by_country))
      else data3) []

/-- `build_json`: value dataset, years rounded to one decimal. -/
def build_json (records : List SRec) (years : List String) : JObj :=
  build_json_gen pyRound1 records years

/-- `build_volume_json`: volume dataset, years rounded to integers. -/
def build_volume_json (records : List SRec) (years : List String) : JObj :=
  build_json_gen pyRound records years

/-! ## Spec-side predicates and concrete inputs for the claims -/

/-- The entries of a value when it is an object. -/
def entriesOf : JVal → JObj
  | .num _ => []
  | .obj kvs => kvs

/-- Spec-side restatement of the pre-pass flagging rule, following the
spec's words: walking the row list with the scan contexts, the triple `x`
is flagged exactly when its indent-2 row with (truthy) year data is
reached in context `x.1 / x.2.1` and, scanning forward from that row, an
indent-3 row appears before any row of indentation 2 or shallower
(`lookahead`).  To be compared with the implementation's `prePass`. -/
def specFlag (geo seg : Option String) (x : String × String × String) : List XRow → Bool
  | [] => false
  | r :: rs =>
    (decide (r.indent = 2) && truthyYD r.year_data && lookahead rs &&
     decide (geo = some x.1) && decide (seg = some x.2.1) && decide (r.label = x.2.2))
    ||
    specFlag (if r.indent = 0 then some r.label else geo)
             (if r.indent = 1 then some r.label else seg) x rs

/-- `q` is a multiple of one tenth (i.e. printed with one decimal). -/
def tenthP (q : ℚ) : Prop := ∃ z : ℤ, q = (z : ℚ) / 10

/-- `q` is an integer. -/
def intP (q : ℚ) : Prop := ∃ z : ℤ, q = (z : ℚ)

mutual

/-- Every number anywhere in the value satisfies `P`. -/
def allNumsP (P : ℚ → Prop) : JVal → Prop
  | .num q => P q
  | .obj kvs => allNumsObjP P kvs

/-- Every number anywhere in the object satisfies `P`. -/
def allNumsObjP (P : ℚ → Prop) : List (String × JVal) → Prop
  | [] => True
  | kv :: rest => allNumsP P kv.2 ∧ allNumsObjP P rest

end

mutual

/-- Every number stored under a year-looking key, anywhere in the value,
satisfies `P`. -/
def yearNumsP (P : ℚ → Prop) : JVal → Prop
  | .num _ => True
  | .obj kvs => yearNumsObjP P kvs

/-- Every number stored under a year-looking key, anywhere in the object,
satisfies `P`. -/
def yearNumsObjP (P : ℚ → Prop) : List (String × JVal) → Prop
  | [] => True
  | (k, v) :: rest =>
    (∀ q, v = JVal.num q → isYearKey k = true → P q) ∧ yearNumsP P v ∧ yearNumsObjP P rest

end

/-- Every year value carried by the row is a multiple of one tenth. -/
def rowRounded (r : XRow) : Prop :=
  ∀ yd, r.year_data = some yd → ∀ kv ∈ yd, tenthP kv.2

/-- Relation between an output entry and an input entry of one node of
`walk_and_convert`: same key; numbers are mapped through `numMap`; object
values are the result of an independent recursive conversion started at
some draw position `m`. -/
def convEntryRel (g : Nat → ℚ) (numMap : ℚ → ℚ) (a b : String × JVal) : Prop :=
  a.1 = b.1 ∧
  (∀ q, b.2 = JVal.num q → a.2 = JVal.num (numMap q)) ∧
  (∀ c, b.2 = JVal.obj c → ∃ m, a.2 = (walk_and_convert g (JVal.obj c) m).1)

/-- C3 counterexample rows: the very first row is an indent-2 row with
year data, immediately followed by an indent-3 row, before any indent-0
or indent-1 row. -/
def c3CexRows : List XRow :=
  [⟨"Combo Products", 2, some [("2021", 100)]⟩,
   ⟨"Inhalers", 3, some [("2021", 60)]⟩]

/-- C3 witness rows: a geography row and a segment-type row precede the
flag-triggering indent-2 row, so the pre-pass succeeds and its success
certifies the coverage of that row. -/
def c3OkRows : List XRow :=
  [⟨"G", 0, none⟩, ⟨"T", 1, none⟩,
   ⟨"S", 2, some [("2021", 1)]⟩, ⟨"L", 3, some [("2021", 1)]⟩]

/-- C9 rows: the indent-2 row has no year data at all. -/
def c9Rows : List XRow :=
  [⟨"Global", 0, none⟩, ⟨"By Product", 1, none⟩,
   ⟨"Combo Products", 2, none⟩,
   ⟨"Inhalers", 3, some [("2021", 60)]⟩]

/-- C9 expected output: a children-only sub-segment node. -/
def c9Expected : JObj :=
  [("Global", JVal.obj [("By Product", JVal.obj [("Combo Products", JVal.obj
     [("Inhalers", JVal.obj [("2021", JVal.num 60)])])])])]

/-- C2 witness rows. -/
def c2Rows : List XRow :=
  [⟨"G", 0, none⟩, ⟨"T", 1, none⟩,
   ⟨"S", 2, some [("2021", 1)]⟩, ⟨"L", 3, some [("2021", 1)]⟩]

/-- C4 witness node: a mixed node with one year value and one child. -/
def c4Kvs : JObj :=
  [("2021", JVal.num 2), ("Sub", JVal.obj [("2021", JVal.num 3)])]

/-- C7 witness rows. -/
def c7Rows : List XRow :=
  [⟨"G", 0, none⟩, ⟨"T", 1, none⟩, ⟨"S", 2, some [("2021", (5 : ℚ)/10)]⟩]

/-- C8 witness row: a blank region cell. -/
def c8BlankRow : SRow := ⟨none, some "By Technology", some "A", [some (some 1)]⟩

/-- C8 witness row: the second year cell is present but does not parse. -/
def c8BadCellRow : SRow :=
  ⟨some "Global", some "By Technology", some "A", [some (some 1), some none]⟩

/-! # Theorems -/

/-- **C1**: running hierarchy assembly on the row sequence
`[("Global",0,no data), ("By Product",1,no data), ("Combo Products",2,{2021:100}),
("Inhalers",3,{2021:60}), ("Pumps",3,{2021:40})]` produces exactly the tree
`{"Global":{"By Product":{"Combo Products":{"2021":100,"Inhalers":{"2021":60},
"Pumps":{"2021":40}}}}}` — a mixed aggregate node holding both its own year
total and its two children. -/
theorem claim_c1_scenario : build_json_from_value_sheet c1Rows = .ok c1Expected := rfl

/-- **C3, counterexample**: on a row sequence whose first indent-2 row with
year data, followed by an indent-3 row, precedes any indent-0 or indent-1
row, the pre-pass reads `current_geo_scan` before assignment: the
unbound-variable error branch *is* reached, so the claim that it is
unreachable for every row sequence is false. -/
theorem claim_c3_counterexample : build_json_from_value_sheet c3CexRows = .error () := rfl

/-- **C10**: the label-normalization rule of the column pipeline (mapping
any sub-segment label containing both "middle east" and "africa"
case-insensitively to "Middle East & Africa") is idempotent. -/
theorem claim_c10_normalize_idempotent (s : String) :
    normalizeLabel (normalizeLabel s) = normalizeLabel s := by
  by_cases h : (strContains (strLower s) "middle east" && strContains (strLower s) "africa") = true <;>
    simp [normalizeLabel, h]

/-- **C6**: volume synthesis is deterministic.  The output tree (and hence
any serialization of it) depends only on the input value tree and on the
unit-draw stream the PRNG produces for the fixed seed 42: two runs whose
PRNGs agree on seed 42 — in particular two runs of the very same library —
give identical trees and byte-identical serialized output. -/
theorem claim_c6_deterministic (ser : JVal → String) (s1 s2 : Nat → Nat → ℚ) (t : JVal)
    (h : s1 42 = s2 42) :
    generate_volume_from_value s1 t = generate_volume_from_value s2 t ∧
    ser (generate_volume_from_value s1 t) = ser (generate_volume_from_value s2 t) := by
  unfold generate_volume_from_value
  rw [h]
  exact ⟨rfl, rfl⟩

/-- Witness for C6 at concrete streams agreeing on seed 42. -/
theorem claim_c6_deterministic_witness :
    generate_volume_from_value (fun _ _ => 0) (JVal.obj []) =
      generate_volume_from_value (fun s _ => if s = 42 then 0 else 1) (JVal.obj []) ∧
    (fun _ => "") (generate_volume_from_value (fun _ _ => 0) (JVal.obj [])) =
      (fun _ => "") (generate_volume_from_value (fun s _ => if s = 42 then 0 else 1) (JVal.obj [])) :=
  claim_c6_deterministic (fun _ => "") (fun _ _ => 0)
    (fun s _ => if s = 42 then 0 else 1) (JVal.obj []) (by funext m; simp)

/-- **C9** (implicit): an indent-2 row with absent year data still becomes
the sub-segment context, and later indent-3 rows with data create its node
holding only the children — a children-only node shape — as the concrete
run shows; and an indent-3 row is inserted only when both a current
sub-segment exists and the row has year data (otherwise the fold state is
unchanged). -/
theorem claim_c9_children_only_node :
    build_json_from_value_sheet c9Rows = .ok c9Expected ∧
    ∀ ch st (r : XRow), r.indent = 3 → (st.sub = none ∨ r.year_data = none) →
      mainStep ch st r = st := by
  refine ⟨rfl, ?_⟩
  intro ch st r h3 hskip
  have h0 : ¬ r.indent = 0 := by omega
  have h1 : ¬ r.indent = 1 := by omega
  have h2 : ¬ r.indent = 2 := by omega
  cases hgeo : st.geo with
  | none => simp [mainStep, h0, hgeo]
  | some g =>
    cases hseg : st.seg with
    | none => simp [mainStep, h0, h1, hgeo, hseg]
    | some sg =>
      rcases hskip with h | h <;> cases hsub : st.sub <;> cases hyd : r.year_data <;>
        simp_all [mainStep, h0, h1, h2, h3, hgeo, hseg]

/-- Witness for the conditional part of C9. -/
theorem claim_c9_witness :
    mainStep [] ⟨[], none, none, none⟩ ⟨"L", 3, some [("2021", 5)]⟩ = ⟨[], none, none, none⟩ :=
  claim_c9_children_only_node.2 [] ⟨[], none, none, none⟩ ⟨"L", 3, some [("2021", 5)]⟩
    rfl (Or.inl rfl)

/-- **C5**: each node carrying year values is classified by its own base
value into three buckets (`> 10000`, `> 1000`, remainder), mapped to the
multiplier ranges `[400,800)`, `[800,1500)`, `[1500,3000)` — disjoint, and
inversely related to magnitude: any draw for a larger-bucket base is
strictly below any draw for a smaller-bucket base (the unit draw of the
PRNG lies in `[0,1)`). -/
theorem claim_c5_magnitude_buckets (g : Nat → ℚ) (n : Nat) (b : ℚ)
    (h0 : 0 ≤ g n) (h1 : g n < 1) :
    ((10000 < b → 400 ≤ (pickFactor g n b).1 ∧ (pickFactor g n b).1 < 800) ∧
     (1000 < b → b ≤ 10000 → 800 ≤ (pickFactor g n b).1 ∧ (pickFactor g n b).1 < 1500) ∧
     (b ≤ 1000 → 1500 ≤ (pickFactor g n b).1 ∧ (pickFactor g n b).1 < 3000)) ∧
    (∀ (g2 : Nat → ℚ) (n2 : Nat) (b2 : ℚ), 0 ≤ g2 n2 → g2 n2 < 1 →
      (10000 < b → b2 ≤ 10000 → (pickFactor g n b).1 < (pickFactor g2 n2 b2).1) ∧
      (1000 < b → b2 ≤ 1000 → (pickFactor g n b).1 < (pickFactor g2 n2 b2).1)) := by
  have bucket1 : ∀ (g' : Nat → ℚ) (n' : Nat) (b' : ℚ), 0 ≤ g' n' → g' n' < 1 → 10000 < b' →
      400 ≤ (pickFactor g' n' b').1 ∧ (pickFactor g' n' b').1 < 800 := by
    intro g' n' b' ha hb hb'
    rw [pickFactor, if_pos (show b' > 10000 from hb')]
    constructor <;> (simp only [uniform]; nlinarith)
  have bucket2 : ∀ (g' : Nat → ℚ) (n' : Nat) (b' : ℚ), 0 ≤ g' n' → g' n' < 1 → 1000 < b' →
      b' ≤ 10000 → 800 ≤ (pickFactor g' n' b').1 ∧ (pickFactor g' n' b').1 < 1500 := by
    intro g' n' b' ha hb hb1 hb2
    rw [pickFactor, if_neg (show ¬ b' > 10000 from not_lt.mpr hb2),
      if_pos (show b' > 1000 from hb1)]
    constructor <;> (simp only [uniform]; nlinarith)
  have bucket3 : ∀ (g' : Nat → ℚ) (n' : Nat) (b' : ℚ), 0 ≤ g' n' → g' n' < 1 → b' ≤ 1000 →
      1500 ≤ (pickFactor g' n' b').1 ∧ (pickFactor g' n' b').1 < 3000 := by
    intro g' n' b' ha hb hb'
    rw [pickFactor, if_neg (show ¬ b' > 10000 from not_lt.mpr (hb'.trans (by norm_num))),
      if_neg (show ¬ b' > 1000 from not_lt.mpr hb')]
    constructor <;> (simp only [uniform]; nlinarith)
  refine ⟨⟨fun hb => bucket1 g n b h0 h1 hb,
           fun hb hb' => bucket2 g n b h0 h1 hb hb',
           fun hb => bucket3 g n b h0 h1 hb⟩, ?_⟩
  intro g2 n2 b2 h20 h21
  constructor
  · intro hb hb2
    have hf1 := (bucket1 g n b h0 h1 hb).2
    by_cases hmid : 1000 < b2
    · have hf2 := (bucket2 g2 n2 b2 h20 h21 hmid hb2).1
      linarith
    · have hf2 := (bucket3 g2 n2 b2 h20 h21 (not_lt.mp hmid)).1
      linarith
  · intro hb hb2
    have hf2 := (bucket3 g2 n2 b2 h20 h21 hb2).1
    by_cases hbig : 10000 < b
    · have hf1 := (bucket1 g n b h0 h1 hbig).2
      linarith
    · have hf1 := (bucket2 g n b h0 h1 hb (not_lt.mp hbig)).2
      linarith

/-- Witness for C5 at the draw `1/2` and bases `20000`, `5000`, `500`. -/
theorem claim_c5_witness :
    (((10000:ℚ) < 20000 → 400 ≤ (pickFactor (fun _ => 1/2) 0 20000).1 ∧
        (pickFactor (fun _ => 1/2) 0 20000).1 < 800) ∧
     ((1000:ℚ) < 20000 → (20000:ℚ) ≤ 10000 → 800 ≤ (pickFactor (fun _ => 1/2) 0 20000).1 ∧
        (pickFactor (fun _ => 1/2) 0 20000).1 < 1500) ∧
     ((20000:ℚ) ≤ 1000 → 1500 ≤ (pickFactor (fun _ => 1/2) 0 20000).1 ∧
        (pickFactor (fun _ => 1/2) 0 20000).1 < 3000)) ∧
    (∀ (g2 : Nat → ℚ) (n2 : Nat) (b2 : ℚ), 0 ≤ g2 n2 → g2 n2 < 1 →
      ((10000:ℚ) < 20000 → b2 ≤ 10000 →
        (pickFactor (fun _ => 1/2) 0 20000).1 < (pickFactor g2 n2 b2).1) ∧
      ((1000:ℚ) < 20000 → b2 ≤ 1000 →
        (pickFactor (fun _ => 1/2) 0 20000).1 < (pickFactor g2 n2 b2).1)) :=
  claim_c5_magnitude_buckets (fun _ => 1/2) 0 20000 (by norm_num) (by norm_num)

/-- One step of the mixed-node loop relates output and input entries:
numbers get the node's single factor, child objects are independent
recursive conversions. -/
theorem walkMixed_rel (g : Nat → ℚ) (f : ℚ) :
    ∀ (kvs : JObj) (n : Nat),
      List.Forall₂ (convEntryRel g (fun q => pyRound (q * f))) (walkMixed g f kvs n).1 kvs := by
  intro kvs
  induction kvs with
  | nil => intro n; simp only [walkMixed]; exact List.Forall₂.nil
  | cons kv rest ih =>
    intro n
    obtain ⟨k, v⟩ := kv
    cases v with
    | num q =>
      simp only [walkMixed]
      refine List.Forall₂.cons ⟨rfl, ?_, ?_⟩ (ih _)
      · intro q' hq'
        cases hq'
        rfl
      · intro c hc
        cases hc
    | obj c =>
      simp only [walkMixed]
      refine List.Forall₂.cons ⟨rfl, ?_, ?_⟩ (ih _)
      · intro q' hq'
        cases hq'
      · intro c' hc'
        cases hc'
        exact ⟨n, rfl⟩

/-- One step of the pure-container loop relates output and input entries:
numbers pass through unchanged, child objects are independent recursive
conversions. -/
theorem walkChildren_rel (g : Nat → ℚ) :
    ∀ (kvs : JObj) (n : Nat),
      List.Forall₂ (convEntryRel g id) (walkChildren g kvs n).1 kvs := by
  intro kvs
  induction kvs with
  | nil => intro n; simp only [walkChildren]; exact List.Forall₂.nil
  | cons kv rest ih =>
    intro n
    obtain ⟨k, v⟩ := kv
    cases v with
    | num q =>
      simp only [walkChildren, walk_and_convert]
      refine List.Forall₂.cons ⟨rfl, ?_, ?_⟩ (ih _)
      · intro q' hq'
        cases hq'
        rfl
      · intro c hc
        cases hc
    | obj c =>
      simp only [walkChildren]
      refine List.Forall₂.cons ⟨rfl, ?_, ?_⟩ (ih _)
      · intro q' hq'
        cases hq'
      · intro c' hc'
        cases hc'
        exact ⟨n, rfl⟩

/-- The pure-leaf branch relates output and input entries when the node
has no object values. -/
theorem map_scale_rel (g : Nat → ℚ) (f : ℚ) :
    ∀ kvs : JObj, hasChildren kvs = false →
      List.Forall₂ (convEntryRel g (fun q => pyRound (q * f)))
        (kvs.map (fun kv => (kv.1, scaleEntry f kv.2))) kvs := by
  intro kvs
  induction kvs with
  | nil => intro _; exact List.Forall₂.nil
  | cons kv rest ih =>
    intro h
    obtain ⟨k, v⟩ := kv
    rw [hasChildren, List.any_cons, Bool.or_eq_false_iff] at h
    cases v with
    | num q =>
      refine List.Forall₂.cons ⟨rfl, ?_, ?_⟩ (ih h.2)
      · intro q' hq'
        cases hq'
        rfl
      · intro c hc
        cases hc
    | obj c => cases h.1

/-- **C4**: every node that carries its own year values (pure leaf or
mixed aggregate) draws exactly one multiplier — determined by one call of
`pickFactor` on the node's own base value — and maps **all** of its own
numeric values `q` to `round(q * f)` with that same `f` (a single scalar
multiple of the value series before rounding); each object child is the
result of an independent recursive conversion (which draws its own
factor), so multipliers are not inherited top-down; and a pure container
node (no year keys) leaves its own numbers untouched and only recurses. -/
theorem claim_c4_one_factor_per_node (g : Nat → ℚ) (n : Nat) (kvs : JObj) :
    (hasYearData kvs = true →
      List.Forall₂
        (convEntryRel g (fun q => pyRound (q * (pickFactor g n (firstNumVal kvs)).1)))
        (entriesOf (walk_and_convert g (JVal.obj kvs) n).1) kvs) ∧
    (hasYearData kvs = false →
      List.Forall₂ (convEntryRel g id)
        (entriesOf (walk_and_convert g (JVal.obj kvs) n).1) kvs) := by
  constructor
  · intro hy
    by_cases hc : hasChildren kvs = true
    · simp only [walk_and_convert, hy, hc, Bool.not_true, Bool.and_false, Bool.and_true,
        Bool.false_eq_true, if_false, if_true, entriesOf]
      exact walkMixed_rel g _ kvs _
    · have hc' : hasChildren kvs = false := by
        cases hcc : hasChildren kvs
        · rfl
        · exact absurd hcc hc
      simp only [walk_and_convert, hy, hc', Bool.not_false, Bool.and_true, if_true, entriesOf]
      exact map_scale_rel g _ kvs hc'
  · intro hy
    simp only [walk_and_convert, hy, Bool.false_and, Bool.false_eq_true, if_false, entriesOf]
    exact walkChildren_rel g kvs n

/-- Witness for C4 at a concrete mixed node. -/
theorem claim_c4_witness :
    hasYearData c4Kvs = true ∧
    List.Forall₂
      (convEntryRel (fun _ => 0)
        (fun q => pyRound (q * (pickFactor (fun _ => 0) 0 (firstNumVal c4Kvs)).1)))
      (entriesOf (walk_and_convert (fun _ => 0) (JVal.obj c4Kvs) 0).1) c4Kvs :=
  ⟨rfl, (claim_c4_one_factor_per_node (fun _ => 0) 0 c4Kvs).1 rfl⟩

/-- Unconditional one-step unfolding of the pre-pass on a cons cell. -/
theorem prePassAux_cons (geo seg : Option String)
    (acc : List (String × String × String)) (r : XRow) (rs : List XRow) :
    prePassAux geo seg acc (r :: rs) =
      if r.indent = 2 ∧ truthyYD r.year_data = true then
        if lookahead rs then
          match geo, seg with
          | some g, some s => prePassAux geo seg ((g, s, r.label) :: acc) rs
          | _, _ => .error ()
        else prePassAux geo seg acc rs
      else if r.indent = 0 then prePassAux (some r.label) seg acc rs
      else if r.indent = 1 then prePassAux geo (some r.label) acc rs
      else prePassAux geo seg acc rs := rfl

/-- Unconditional one-step unfolding of the spec-side scan on a cons cell. -/
theorem specFlag_cons (geo seg : Option String) (x : String × String × String)
    (r : XRow) (rs : List XRow) :
    specFlag geo seg x (r :: rs) =
      ((decide (r.indent = 2) && truthyYD r.year_data && lookahead rs &&
        decide (geo = some x.1) && decide (seg = some x.2.1) &&
        decide (r.label = x.2.2))
       ||
       specFlag (if r.indent = 0 then some r.label else geo)
                (if r.indent = 1 then some r.label else seg) x rs) := rfl

/-- Membership in a successful pre-pass run equals membership in the
accumulator or satisfaction of the spec-side forward-scan rule, for any
starting scan context. -/
theorem mem_prePassAux :
    ∀ (rows : List XRow) (geo seg : Option String)
      (acc s : List (String × String × String)),
      prePassAux geo seg acc rows = .ok s →
      ∀ x, x ∈ s ↔ (x ∈ acc ∨ specFlag geo seg x rows = true) := by
  intro rows
  induction rows with
  | nil =>
    intro geo seg acc s h x
    cases h
    simp [specFlag]
  | cons r rs ih =>
    intro geo seg acc s h x
    rw [prePassAux_cons] at h
    rw [specFlag_cons]
    by_cases hcond : r.indent = 2 ∧ truthyYD r.year_data = true
    · rw [if_pos hcond] at h
      obtain ⟨h2, ht⟩ := hcond
      have hg0 : ¬ r.indent = 0 := by omega
      have hg1 : ¬ r.indent = 1 := by omega
      by_cases hla : lookahead rs = true
      · rw [if_pos hla] at h
        cases geo with
        | none => cases seg <;> exact Except.noConfusion h
        | some g =>
          cases seg with
          | none => exact Except.noConfusion h
          | some t =>
            rw [ih (some g) (some t) ((g, t, r.label) :: acc) s h x]
            obtain ⟨x1, x2, x3⟩ := x
            simp [h2, ht, hla, List.mem_cons, Prod.ext_iff]
            tauto
      · rw [if_neg hla] at h
        have hla' : lookahead rs = false := by
          cases hl : lookahead rs
          · rfl
          · exact absurd hl hla
        rw [ih geo seg acc s h x]
        simp [hla', if_neg hg0, if_neg hg1]
    · rw [if_neg hcond] at h
      have hflagfalse :
          (decide (r.indent = 2) && truthyYD r.year_data && lookahead rs &&
           decide (geo = some x.1) && decide (seg = some x.2.1) &&
           decide (r.label = x.2.2)) = false := by
        rcases Decidable.not_and_iff_or_not.mp hcond with h2 | htr
        · simp [h2]
        · have htf : truthyYD r.year_data = false := by
            cases htd : truthyYD r.year_data
            · rfl
            · exact absurd htd htr
          simp [htf]
      by_cases h0 : r.indent = 0
      · rw [if_pos h0] at h
        rw [ih (some r.label) seg acc s h x]
        have h01 : ¬ r.indent = 1 := by omega
        simp [hflagfalse, h0, if_neg h01]
      · rw [if_neg h0] at h
        by_cases h1 : r.indent = 1
        · rw [if_pos h1] at h
          rw [ih geo (some r.label) acc s h x]
          simp [hflagfalse, if_neg h0, h1]
        · rw [if_neg h1] at h
          rw [ih geo seg acc s h x]
          simp [hflagfalse, if_neg h0, if_neg h1]

/-- **C2**: a successful pre-pass flags the triple `x` as having children
if and only if, walking the rows with the scan contexts, the sub-segment's
indent-2 row (with year data, in context `x.1 / x.2.1`) is followed —
scanning forward — by an indent-3 row before any row of indentation 2 or
shallower (`specFlag`, whose boundary test `lookahead` stops at the first
row whose indentation is not deeper): contiguity is the boundary rule. -/
theorem claim_c2_prepass_boundary (rows : List XRow)
    (s : List (String × String × String)) (h : prePass rows = .ok s)
    (x : String × String × String) :
    x ∈ s ↔ specFlag none none x rows = true := by
  have := mem_prePassAux rows none none [] s h x
  simpa using this

/-- Witness for C2 on a concrete four-row sequence. -/
theorem claim_c2_witness :
    ("G", "T", "S") ∈ [("G", "T", "S")] ↔
      specFlag none none ("G", "T", "S") c2Rows = true :=
  claim_c2_prepass_boundary c2Rows [("G", "T", "S")] rfl ("G", "T", "S")

/-- The pre-pass succeeds from any starting context in which every
flag-triggering row (indent 2, year data, indent-3 lookahead) is covered:
the geography context is already assigned or some earlier row has indent 0,
and likewise for the segment context with indent 1. -/
theorem prePassAux_ok_of :
    ∀ (rows : List XRow) (geo seg : Option String)
      (acc : List (String × String × String)),
      (∀ pre (r : XRow) post, rows = pre ++ r :: post → r.indent = 2 →
        truthyYD r.year_data = true → lookahead post = true →
        (geo.isSome = true ∨ ∃ r0 ∈ pre, r0.indent = 0) ∧
        (seg.isSome = true ∨ ∃ r1 ∈ pre, r1.indent = 1)) →
      ∃ s, prePassAux geo seg acc rows = .ok s := by
  intro rows
  induction rows with
  | nil => intro geo seg acc _; exact ⟨acc, rfl⟩
  | cons r rs ih =>
    intro geo seg acc hsafe
    rw [prePassAux_cons]
    by_cases hcond : r.indent = 2 ∧ truthyYD r.year_data = true
    · rw [if_pos hcond]
      by_cases hla : lookahead rs = true
      · rw [if_pos hla]
        have hctx := hsafe [] r rs rfl hcond.1 hcond.2 hla
        have hgeo : geo.isSome = true := by
          rcases hctx.1 with hg | ⟨r0, hr0, _⟩
          · exact hg
          · simp at hr0
        have hseg : seg.isSome = true := by
          rcases hctx.2 with hs | ⟨r1, hr1, _⟩
          · exact hs
          · simp at hr1
        obtain ⟨g, rfl⟩ := Option.isSome_iff_exists.mp hgeo
        obtain ⟨t, rfl⟩ := Option.isSome_iff_exists.mp hseg
        exact ih (some g) (some t) ((g, t, r.label) :: acc)
          (fun pre r' post heq h2 htr hlk => ⟨Or.inl rfl, Or.inl rfl⟩)
      · rw [if_neg hla]
        apply ih geo seg acc
        intro pre r' post heq h2 htr hlk
        have hs := hsafe (r :: pre) r' post (by rw [heq]; rfl) h2 htr hlk
        refine ⟨?_, ?_⟩
        · rcases hs.1 with hg | ⟨r0, hr0, hi0⟩
          · exact Or.inl hg
          · rcases List.mem_cons.mp hr0 with rfl | hr0'
            · have := hcond.1
              omega
            · exact Or.inr ⟨r0, hr0', hi0⟩
        · rcases hs.2 with hg | ⟨r1, hr1, hi1⟩
          · exact Or.inl hg
          · rcases List.mem_cons.mp hr1 with rfl | hr1'
            · have := hcond.1
              omega
            · exact Or.inr ⟨r1, hr1', hi1⟩
    · rw [if_neg hcond]
      by_cases h0 : r.indent = 0
      · rw [if_pos h0]
        apply ih (some r.label) seg acc
        intro pre r' post heq h2 htr hlk
        have hs := hsafe (r :: pre) r' post (by rw [heq]; rfl) h2 htr hlk
        refine ⟨Or.inl rfl, ?_⟩
        rcases hs.2 with hg | ⟨r1, hr1, hi1⟩
        · exact Or.inl hg
        · rcases List.mem_cons.mp hr1 with rfl | hr1'
          · exact absurd hi1 (by omega)
          · exact Or.inr ⟨r1, hr1', hi1⟩
      · rw [if_neg h0]
        by_cases h1 : r.indent = 1
        · rw [if_pos h1]
          apply ih geo (some r.label) acc
          intro pre r' post heq h2 htr hlk
          have hs := hsafe (r :: pre) r' post (by rw [heq]; rfl) h2 htr hlk
          refine ⟨?_, Or.inl rfl⟩
          rcases hs.1 with hg | ⟨r0, hr0, hi0⟩
          · exact Or.inl hg
          · rcases List.mem_cons.mp hr0 with rfl | hr0'
            · exact absurd hi0 h0
            · exact Or.inr ⟨r0, hr0', hi0⟩
        · rw [if_neg h1]
          apply ih geo seg acc
          intro pre r' post heq h2 htr hlk
          have hs := hsafe (r :: pre) r' post (by rw [heq]; rfl) h2 htr hlk
          refine ⟨?_, ?_⟩
          · rcases hs.1 with hg | ⟨r0, hr0, hi0⟩
            · exact Or.inl hg
            · rcases List.mem_cons.mp hr0 with rfl | hr0'
              · exact absurd hi0 h0
              · exact Or.inr ⟨r0, hr0', hi0⟩
          · rcases hs.2 with hg | ⟨r1, hr1, hi1⟩
            · exact Or.inl hg
            · rcases List.mem_cons.mp hr1 with rfl | hr1'
              · exact absurd hi1 h1
              · exact Or.inr ⟨r1, hr1', hi1⟩

/-- Conversely, a successful pre-pass certifies coverage: at every
flag-triggering row (indent 2, year data, indent-3 lookahead), the
geography scan variable was already assigned on entry or some earlier row
has indent 0, and likewise for the segment variable with indent 1. -/
theorem prePassAux_ok_coverage :
    ∀ (rows : List XRow) (geo seg : Option String)
      (acc s : List (String × String × String)),
      prePassAux geo seg acc rows = .ok s →
      ∀ pre (r : XRow) post, rows = pre ++ r :: post → r.indent = 2 →
        truthyYD r.year_data = true → lookahead post = true →
        (geo.isSome = true ∨ ∃ r0 ∈ pre, r0.indent = 0) ∧
        (seg.isSome = true ∨ ∃ r1 ∈ pre, r1.indent = 1) := by
  intro rows
  induction rows with
  | nil =>
    intro geo seg acc s h pre r post heq h2 htr hlk
    exfalso
    have hlen := congrArg List.length heq
    simp [List.length_append] at hlen
    omega
  | cons a rs ih =>
    intro geo seg acc s h pre r post heq h2 htr hlk
    rw [prePassAux_cons] at h
    cases pre with
    | nil =>
      rw [List.nil_append] at heq
      injection heq with e1 e2
      subst e1
      subst e2
      rw [if_pos ⟨h2, htr⟩, if_pos hlk] at h
      cases geo with
      | none => cases seg <;> exact Except.noConfusion h
      | some g =>
        cases seg with
        | none => exact Except.noConfusion h
        | some t => exact ⟨Or.inl rfl, Or.inl rfl⟩
    | cons a' pre' =>
      rw [List.cons_append] at heq
      injection heq with e1 e2
      subst e1
      by_cases hcond : a.indent = 2 ∧ truthyYD a.year_data = true
      · rw [if_pos hcond] at h
        by_cases hla : lookahead rs = true
        · rw [if_pos hla] at h
          cases geo with
          | none => cases seg <;> exact Except.noConfusion h
          | some g =>
            cases seg with
            | none => exact Except.noConfusion h
            | some t => exact ⟨Or.inl rfl, Or.inl rfl⟩
        · rw [if_neg hla] at h
          have hc := ih geo seg acc s h pre' r post e2 h2 htr hlk
          refine ⟨?_, ?_⟩
          · rcases hc.1 with hg | ⟨r0, hr0, hi⟩
            · exact Or.inl hg
            · exact Or.inr ⟨r0, List.mem_cons_of_mem _ hr0, hi⟩
          · rcases hc.2 with hg | ⟨r1, hr1, hi⟩
            · exact Or.inl hg
            · exact Or.inr ⟨r1, List.mem_cons_of_mem _ hr1, hi⟩
      · rw [if_neg hcond] at h
        by_cases h0 : a.indent = 0
        · rw [if_pos h0] at h
          have hc := ih (some a.label) seg acc s h pre' r post e2 h2 htr hlk
          refine ⟨Or.inr ⟨a, List.mem_cons_self _ _, h0⟩, ?_⟩
          rcases hc.2 with hg | ⟨r1, hr1, hi⟩
          · exact Or.inl hg
          · exact Or.inr ⟨r1, List.mem_cons_of_mem _ hr1, hi⟩
        · rw [if_neg h0] at h
          by_cases h1 : a.indent = 1
          · rw [if_pos h1] at h
            have hc := ih geo (some a.label) acc s h pre' r post e2 h2 htr hlk
            refine ⟨?_, Or.inr ⟨a, List.mem_cons_self _ _, h1⟩⟩
            rcases hc.1 with hg | ⟨r0, hr0, hi⟩
            · exact Or.inl hg
            · exact Or.inr ⟨r0, List.mem_cons_of_mem _ hr0, hi⟩
          · rw [if_neg h1] at h
            have hc := ih geo seg acc s h pre' r post e2 h2 htr hlk
            refine ⟨?_, ?_⟩
            · rcases hc.1 with hg | ⟨r0, hr0, hi⟩
              · exact Or.inl hg
              · exact Or.inr ⟨r0, List.mem_cons_of_mem _ hr0, hi⟩
            · rcases hc.2 with hg | ⟨r1, hr1, hi⟩
              · exact Or.inl hg
              · exact Or.inr ⟨r1, List.mem_cons_of_mem _ hr1, hi⟩

/-- **C3, amended**: the unbound-variable branch of the pre-pass *is*
reachable (see the counterexample); the scan variables are read only after
assignment — and the pre-pass succeeds — exactly when every indent-2 row
with year data that is followed by an indent-3 row before any row of
indentation 2 or shallower is preceded by at least one indent-0 row and at
least one indent-1 row.  A row sequence whose first such indent-2 row
precedes any indent-0 or indent-1 row reaches the error branch instead. -/
theorem claim_c3_amended (rows : List XRow) :
    (∃ s, prePass rows = .ok s) ↔
    (∀ pre (r : XRow) post, rows = pre ++ r :: post → r.indent = 2 →
      truthyYD r.year_data = true → lookahead post = true →
      (∃ r0 ∈ pre, r0.indent = 0) ∧ (∃ r1 ∈ pre, r1.indent = 1)) := by
  constructor
  · rintro ⟨s, hs⟩ pre r post heq h2 htr hlk
    have hc := prePassAux_ok_coverage rows none none [] s hs pre r post heq h2 htr hlk
    refine ⟨?_, ?_⟩
    · rcases hc.1 with hg | hg
      · exact absurd hg (by simp)
      · exact hg
    · rcases hc.2 with hg | hg
      · exact absurd hg (by simp)
      · exact hg
  · intro hsafe
    apply prePassAux_ok_of rows none none []
    intro pre r post heq h2 htr hlk
    exact ⟨Or.inr (hsafe pre r post heq h2 htr hlk).1,
           Or.inr (hsafe pre r post heq h2 htr hlk).2⟩

/-- Witness for the amended C3: on a run whose pre-pass succeeds and does
flag a sub-segment, the equivalence instantiated at the flag-triggering
indent-2 row yields the covering indent-0 and indent-1 rows in its prefix
— every hypothesis is exercised non-vacuously. -/
theorem claim_c3_amended_witness :
    (∃ r0 ∈ [(⟨"G", 0, none⟩ : XRow), ⟨"T", 1, none⟩], r0.indent = 0) ∧
    (∃ r1 ∈ [(⟨"G", 0, none⟩ : XRow), ⟨"T", 1, none⟩], r1.indent = 1) :=
  (claim_c3_amended c3OkRows).mp ⟨[("G", "T", "S")], rfl⟩
    [⟨"G", 0, none⟩, ⟨"T", 1, none⟩]
    ⟨"S", 2, some [("2021", 1)]⟩
    [⟨"L", 3, some [("2021", 1)]⟩]
    rfl rfl rfl rfl

/-- `getD` after `set` at the written index, in range. -/
theorem getD_set_self {α : Type} :
    ∀ (l : List α) (j : Nat) (a d : α), j < l.length → (l.set j a).getD j d = a
  | [], j, a, d, h => absurd h (by simp)
  | x :: xs, 0, a, d, _ => rfl
  | x :: xs, j + 1, a, d, h =>
    getD_set_self xs j a d (by simpa using h)

/-- `getD` after `set` at another index. -/
theorem getD_set_ne {α : Type} :
    ∀ (l : List α) (i j : Nat) (a d : α), i ≠ j → (l.set j a).getD i d = l.getD i d := by
  intro l
  induction l with
  | nil => intro i j a d _; rfl
  | cons x xs ih =>
    intro i j a d hij
    cases j with
    | zero =>
      cases i with
      | zero => exact absurd rfl hij
      | succ i' => rfl
    | succ j' =>
      cases i with
      | zero => rfl
      | succ i' => exact ih i' j' a d (by omega)

/-- `getD` past the end of the list is the default. -/
theorem getD_of_length_le {α : Type} :
    ∀ (l : List α) (j : Nat) (d : α), l.length ≤ j → l.getD j d = d := by
  intro l
  induction l with
  | nil => intro j d _; rfl
  | cons x xs ih =>
    intro j d h
    cases j with
    | zero => simp at h
    | succ j' => exact ih j' d (by simpa using h)

/-- `collectVals` only looks at whether each accessed cell parses, so two
cell lists that parse identically at every index collect the same values. -/
theorem collectVals_congr_aux (c1 c2 : List (Option (Option ℚ)))
    (hiff : ∀ i q, c1.getD i none = some (some q) ↔ c2.getD i none = some (some q)) :
    ∀ (l : List (Nat × String)) (acc : List (String × ℚ)),
      l.foldl (fun acc p =>
        match c1.getD p.1 none with
        | some (some q) => acc ++ [(p.2, q)]
        | _ => acc) acc =
      l.foldl (fun acc p =>
        match c2.getD p.1 none with
        | some (some q) => acc ++ [(p.2, q)]
        | _ => acc) acc := by
  intro l
  induction l with
  | nil => intro acc; rfl
  | cons p rest ih =>
    intro acc
    have hstep :
        (match c1.getD p.1 none with
         | some (some q) => acc ++ [(p.2, q)]
         | _ => acc) =
        (match c2.getD p.1 none with
         | some (some q) => acc ++ [(p.2, q)]
         | _ => acc) := by
      cases h1 : c1.getD p.1 none with
      | none =>
        cases h2 : c2.getD p.1 none with
        | none => rfl
        | some o =>
          cases o with
          | none => rfl
          | some q => exact absurd ((hiff p.1 q).mpr h2) (by rw [h1]; simp)
      | some o1 =>
        cases o1 with
        | none =>
          cases h2 : c2.getD p.1 none with
          | none => rfl
          | some o =>
            cases o with
            | none => rfl
            | some q => exact absurd ((hiff p.1 q).mpr h2) (by rw [h1]; simp)
        | some q =>
          rw [(hiff p.1 q).mp h1]
    simp only [List.foldl_cons]
    rw [hstep]
    exact ih _

/-- **C8**: row extraction rejects any data row whose region, segment, or
sub-segment field is blank (no record is produced); a year cell whose
numeric parse fails behaves exactly as an absent cell — only that year is
omitted and the rest of the row is unaffected (the failure is never
fatal); and the year mapping of any produced record is exactly the
collection of the parsing year cells. -/
theorem claim_c8_parse_row (years : List String) (r : SRow) :
    ((strField r.c0 = "" ∨ strField r.c1 = "" ∨ strField r.c2 = "") →
      parse_section_row years r = none) ∧
    (∀ j, r.cells.getD j none = some none →
      parse_section_row years r =
        parse_section_row years { r with cells := r.cells.set j none }) ∧
    (∀ rec, parse_section_row years r = some rec →
      rec.values = collectVals years r.cells) := by
  refine ⟨?_, ?_, ?_⟩
  · intro h
    simp only [parse_section_row]
    rw [if_pos h]
  · intro j hj
    have hlen : j < r.cells.length := by
      by_contra hge
      rw [getD_of_length_le r.cells j none (by omega)] at hj
      exact Option.noConfusion hj
    have hc : collectVals years (r.cells.set j none) = collectVals years r.cells := by
      unfold collectVals
      apply collectVals_congr_aux
      intro i q
      by_cases hij : i = j
      · subst hij
        constructor
        · intro h'
          rw [getD_set_self _ _ _ _ hlen] at h'
          exact Option.noConfusion h'
        · intro h'
          rw [hj] at h'
          simp at h'
      · rw [getD_set_ne _ _ _ _ _ hij]
    simp only [parse_section_row, hc]
  · intro rec h
    simp only [parse_section_row] at h
    split_ifs at h
    all_goals first
      | exact Option.noConfusion h
      | (cases h; rfl)

/-- Witness for C8: a blank-region row yields no record; an unparseable
year cell is interchangeable with an absent one; the produced record keeps
the other year. -/
theorem claim_c8_witness :
    parse_section_row ["2019", "2020"] c8BlankRow = none ∧
    parse_section_row ["2019", "2020"] c8BadCellRow =
      parse_section_row ["2019", "2020"]
        { c8BadCellRow with cells := c8BadCellRow.cells.set 1 none } ∧
    (⟨"Global", "By Technology", "A", [("2019", 1)]⟩ : SRec).values =
      collectVals ["2019", "2020"] c8BadCellRow.cells :=
  ⟨(claim_c8_parse_row ["2019", "2020"] c8BlankRow).1 (Or.inl rfl),
   (claim_c8_parse_row ["2019", "2020"] c8BadCellRow).2.1 1 rfl,
   (claim_c8_parse_row ["2019", "2020"] c8BadCellRow).2.2
     ⟨"Global", "By Technology", "A", [("2019", 1)]⟩ rfl⟩

/-- `allNumsP` on an object is `allNumsObjP` on its entries. -/
theorem allNumsP_obj (P : ℚ → Prop) (kvs : JObj) :
    allNumsP P (JVal.obj kvs) = allNumsObjP P kvs := by
  rw [allNumsP]

/-- `allNumsObjP` splits over append. -/
theorem allNumsObjP_append (P : ℚ → Prop) :
    ∀ (o1 o2 : JObj), allNumsObjP P o1 → allNumsObjP P o2 → allNumsObjP P (o1 ++ o2) := by
  intro o1
  induction o1 with
  | nil => intro o2 _ h2; simpa using h2
  | cons kv rest ih =>
    intro o2 h1 h2
    rw [allNumsObjP] at h1
    rw [List.cons_append, allNumsObjP]
    exact ⟨h1.1, ih o2 h1.2 h2⟩

/-- `setKey` preserves `allNumsObjP` when the inserted value satisfies it. -/
theorem allNumsObjP_setKey (P : ℚ → Prop) :
    ∀ (o : JObj) (k : String) (v : JVal),
      allNumsObjP P o → allNumsP P v → allNumsObjP P (setKey o k v) := by
  intro o
  induction o with
  | nil => intro k v _ hv; rw [setKey, allNumsObjP]; exact ⟨hv, trivial⟩
  | cons kv rest ih =>
    intro k v ho hv
    rw [allNumsObjP] at ho
    rw [setKey]
    by_cases hk : kv.1 = k
    · rw [if_pos hk, allNumsObjP]
      exact ⟨hv, ho.2⟩
    · rw [if_neg hk, allNumsObjP]
      exact ⟨ho.1, ih k v ho.2 hv⟩

/-- `modifyObj` preserves `allNumsObjP` when the modification does. -/
theorem allNumsObjP_modifyObj (P : ℚ → Prop) :
    ∀ (o : JObj) (k : String) (f : JObj → JObj),
      allNumsObjP P o → (∀ kvs, allNumsObjP P kvs → allNumsObjP P (f kvs)) →
      allNumsObjP P (modifyObj o k f) := by
  intro o
  induction o with
  | nil => intro k f _ _; exact trivial
  | cons kv rest ih =>
    intro k f ho hf
    rw [allNumsObjP] at ho
    rw [modifyObj]
    by_cases hk : kv.1 = k
    · rw [if_pos hk]
      cases hv : kv.2 with
      | num q =>
        rw [allNumsObjP]
        refine ⟨?_, ho.2⟩
        show allNumsP P (JVal.num q)
        rw [← hv]
        exact ho.1
      | obj kvs =>
        rw [allNumsObjP]
        refine ⟨?_, ho.2⟩
        show allNumsP P (JVal.obj (f kvs))
        rw [allNumsP_obj]
        apply hf
        have h1 := ho.1
        rw [hv, allNumsP_obj] at h1
        exact h1
    · rw [if_neg hk, allNumsObjP]
      exact ⟨ho.1, ih k f ho.2 hf⟩

/-- Folding `setKey` of numbers over a `P`-rounded year mapping preserves
`allNumsObjP`. -/
theorem allNumsObjP_foldl_setKey (P : ℚ → Prop) :
    ∀ (yd : List (String × ℚ)) (node : JObj),
      allNumsObjP P node → (∀ kv ∈ yd, P kv.2) →
      allNumsObjP P (yd.foldl (fun acc kv => setKey acc kv.1 (JVal.num kv.2)) node) := by
  intro yd
  induction yd with
  | nil => intro node hn _; exact hn
  | cons kv rest ih =>
    intro node hn hyd
    rw [List.foldl_cons]
    apply ih
    · apply allNumsObjP_setKey P node kv.1 (JVal.num kv.2) hn
      rw [allNumsP]
      exact hyd kv (List.mem_cons_self kv rest)
    · intro kv' h'
      exact hyd kv' (List.mem_cons_of_mem kv h')

/-- `ydToObj` of a `P`-rounded year mapping satisfies `allNumsObjP`. -/
theorem allNumsObjP_ydToObj (P : ℚ → Prop) :
    ∀ yd : List (String × ℚ), (∀ kv ∈ yd, P kv.2) → allNumsObjP P (ydToObj yd) := by
  intro yd
  induction yd with
  | nil => intro _; exact trivial
  | cons kv rest ih =>
    intro hyd
    rw [ydToObj, List.map_cons, allNumsObjP]
    constructor
    · rw [allNumsP]
      exact hyd kv (List.mem_cons_self kv rest)
    · exact ih (fun kv' h' => hyd kv' (List.mem_cons_of_mem kv h'))

/-- One step of the main pass preserves `allNumsObjP` of the result when
the processed row's year values satisfy `P`. -/
theorem mainStep_allNums (P : ℚ → Prop) (ch : List (String × String × String))
    (st : BState) (r : XRow)
    (hr : ∀ yd, r.year_data = some yd → ∀ kv ∈ yd, P kv.2)
    (hst : allNumsObjP P st.result) :
    allNumsObjP P ((mainStep ch st r).result) := by
  have hemp : allNumsP P (JVal.obj []) := trivial
  have hsingle : allNumsObjP P [(r.label, JVal.obj [])] := ⟨hemp, trivial⟩
  by_cases h0 : r.indent = 0
  · simp only [mainStep, if_pos h0]
    split
    · exact hst
    · exact allNumsObjP_append P _ _ hst hsingle
  · cases hgeo : st.geo with
    | none =>
      simp only [mainStep, if_neg h0, hgeo]
      exact hst
    | some g =>
      by_cases h1 : r.indent = 1
      · simp only [mainStep, if_neg h0, hgeo, if_pos h1]
        refine allNumsObjP_modifyObj P _ _ _ hst ?_
        intro kvs hk
        split
        · exact hk
        · exact allNumsObjP_append P _ _ hk ⟨hemp, trivial⟩
      · cases hseg : st.seg with
        | none =>
          simp only [mainStep, if_neg h0, hgeo, if_neg h1, hseg]
          exact hst
        | some sg =>
          by_cases h2 : r.indent = 2
          · cases hyd : r.year_data with
            | none =>
              simp only [mainStep, if_neg h0, hgeo, if_neg h1, hseg, if_pos h2, hyd]
              exact hst
            | some yd =>
              have hydP : ∀ kv ∈ yd, P kv.2 := hr yd hyd
              by_cases hmem : (g, sg, r.label) ∈ ch
              · simp only [mainStep, if_neg h0, hgeo, if_neg h1, hseg, if_pos h2, hyd,
                  if_pos hmem]
                refine allNumsObjP_modifyObj P _ _ _ hst ?_
                intro go hgo
                refine allNumsObjP_modifyObj P _ _ _ hgo ?_
                intro gd hgd
                refine allNumsObjP_modifyObj P _ _ _ ?_ ?_
                · split
                  · exact hgd
                  · exact allNumsObjP_append P _ _ hgd ⟨hemp, trivial⟩
                · intro node hnode
                  exact allNumsObjP_foldl_setKey P yd node hnode hydP
              · simp only [mainStep, if_neg h0, hgeo, if_neg h1, hseg, if_pos h2, hyd,
                  if_neg hmem]
                refine allNumsObjP_modifyObj P _ _ _ hst ?_
                intro go hgo
                refine allNumsObjP_modifyObj P _ _ _ hgo ?_
                intro gd hgd
                refine allNumsObjP_setKey P _ _ _ hgd ?_
                rw [allNumsP_obj]
                exact allNumsObjP_ydToObj P yd hydP
          · by_cases h3 : r.indent = 3
            · cases hsub : st.sub with
              | none =>
                cases hyd : r.year_data <;>
                  (simp only [mainStep, if_neg h0, hgeo, if_neg h1, hseg, if_neg h2,
                    if_pos h3, hsub]
                   exact hst)
              | some sb =>
                cases hyd : r.year_data with
                | none =>
                  simp only [mainStep, if_neg h0, hgeo, if_neg h1, hseg, if_neg h2,
                    if_pos h3, hsub, hyd]
                  exact hst
                | some yd =>
                  have hydP : ∀ kv ∈ yd, P kv.2 := hr yd hyd
                  simp only [mainStep, if_neg h0, hgeo, if_neg h1, hseg, if_neg h2,
                    if_pos h3, hsub, hyd]
                  refine allNumsObjP_modifyObj P _ _ _ hst ?_
                  intro go hgo
                  refine allNumsObjP_modifyObj P _ _ _ hgo ?_
                  intro gd hgd
                  refine allNumsObjP_modifyObj P _ _ _ ?_ ?_
                  · split
                    · exact hgd
                    · exact allNumsObjP_append P _ _ hgd ⟨hemp, trivial⟩
                  · intro node hnode
                    refine allNumsObjP_setKey P _ _ _ hnode ?_
                    rw [allNumsP_obj]
                    exact allNumsObjP_ydToObj P yd hydP
            · cases hsub : st.sub <;> cases hyd : r.year_data <;>
                (simp only [mainStep, if_neg h0, hgeo, if_neg h1, hseg, if_neg h2, if_neg h3,
                  hsub, hyd]
                 exact hst)

/-- The main-pass fold preserves `allNumsObjP` of the result. -/
theorem foldl_mainStep_allNums (P : ℚ → Prop) (ch : List (String × String × String)) :
    ∀ (rows : List XRow) (st : BState),
      (∀ r ∈ rows, ∀ yd, r.year_data = some yd → ∀ kv ∈ yd, P kv.2) →
      allNumsObjP P st.result →
      allNumsObjP P ((rows.foldl (mainStep ch) st).result) := by
  intro rows
  induction rows with
  | nil => intro st _ hst; exact hst
  | cons r rest ih =>
    intro st hrows hst
    rw [List.foldl_cons]
    refine ih (mainStep ch st r) (fun r' h' => hrows r' (List.mem_cons_of_mem r h')) ?_
    exact mainStep_allNums P ch st r (hrows r (List.mem_cons_self r rest)) hst

/-- Every year value recorded by `read_year_data` is a multiple of one
tenth (a present cell is rounded to one decimal, an absent one is an
explicit zero). -/
theorem read_year_data_tenth (cells : Nat → Option ℚ) :
    ∀ kv ∈ (read_year_data cells).1, tenthP kv.2 := by
  have haux : ∀ (l : List (Nat × Nat)) (acc : List (String × ℚ) × Bool),
      (∀ kv ∈ acc.1, tenthP kv.2) →
      ∀ kv ∈ (l.foldl (fun acc p =>
        match cells p.1 with
        | some v => (acc.1 ++ [(toString p.2, pyRound1 v)], true)
        | none => (acc.1 ++ [(toString p.2, (0 : ℚ))], acc.2)) acc).1, tenthP kv.2 := by
    intro l
    induction l with
    | nil => intro acc hacc; exact hacc
    | cons p rest ih =>
      intro acc hacc
      rw [List.foldl_cons]
      apply ih
      cases hc : cells p.1 with
      | some v =>
        intro kv hkv
        rcases List.mem_append.mp hkv with hkv | hkv
        · exact hacc kv hkv
        · rcases List.mem_singleton.mp hkv with rfl
          exact ⟨pyRoundInt (v * 10), rfl⟩
      | none =>
        intro kv hkv
        rcases List.mem_append.mp hkv with hkv | hkv
        · exact hacc kv hkv
        · rcases List.mem_singleton.mp hkv with rfl
          exact ⟨0, by norm_num⟩
  intro kv hkv
  exact haux YEARS.enum ([], false) (by intro kv h; simp at h) kv hkv

/-- The result of converting an object node is again an object node. -/
theorem walk_obj_shape (g : Nat → ℚ) (kvs : JObj) (n : Nat) :
    ∃ kvs', (walk_and_convert g (JVal.obj kvs) n).1 = JVal.obj kvs' := by
  simp only [walk_and_convert]
  split
  · exact ⟨_, rfl⟩
  · split
    · exact ⟨_, rfl⟩
    · exact ⟨_, rfl⟩

/-- The pure-leaf scaling map sends every entry of a childless node to an
integer-valued number. -/
theorem scaleMap_yearNums (f : ℚ) :
    ∀ kvs : JObj, hasChildren kvs = false →
      yearNumsObjP intP (kvs.map (fun kv => (kv.1, scaleEntry f kv.2))) := by
  intro kvs
  induction kvs with
  | nil => intro _; exact trivial
  | cons kv rest ih =>
    intro h
    rw [hasChildren, List.any_cons, Bool.or_eq_false_iff] at h
    obtain ⟨k, v⟩ := kv
    cases v with
    | num q =>
      refine ⟨?_, trivial, ih h.2⟩
      intro q' hq' _
      cases hq'
      exact ⟨pyRoundInt (q * f), rfl⟩
    | obj c => exact absurd h.1 (by simp [isDictVal])

/-- The mixed-node loop preserves the year-integrality invariant, given it
recursively for every object child. -/
theorem walkMixed_yearNums (g : Nat → ℚ) (f : ℚ) :
    ∀ (kvs : JObj) (n : Nat),
      (∀ k c, (k, JVal.obj c) ∈ kvs → ∀ m, yearNumsP intP (walk_and_convert g (JVal.obj c) m).1) →
      yearNumsObjP intP (walkMixed g f kvs n).1 := by
  intro kvs
  induction kvs with
  | nil => intro n _; exact trivial
  | cons kv rest ih =>
    intro n hrec
    obtain ⟨k, v⟩ := kv
    cases v with
    | num q =>
      simp only [walkMixed]
      refine ⟨?_, trivial, ?_⟩
      · intro q' hq' _
        cases hq'
        exact ⟨pyRoundInt (q * f), rfl⟩
      · exact ih _ (fun k' c' h' m => hrec k' c' (List.mem_cons_of_mem _ h') m)
    | obj c =>
      simp only [walkMixed]
      refine ⟨?_, ?_, ?_⟩
      · intro q' hq' _
        obtain ⟨kvs', hshape⟩ := walk_obj_shape g c n
        rw [hshape] at hq'
        cases hq'
      · exact hrec k c (List.mem_cons_self _ _) n
      · exact ih _ (fun k' c' h' m => hrec k' c' (List.mem_cons_of_mem _ h') m)

/-- The pure-container loop preserves the year-integrality invariant: a
container has no year keys, and each child is recursively converted. -/
theorem walkChildren_yearNums (g : Nat → ℚ) :
    ∀ (kvs : JObj) (n : Nat),
      hasYearData kvs = false →
      (∀ k c, (k, JVal.obj c) ∈ kvs → ∀ m, yearNumsP intP (walk_and_convert g (JVal.obj c) m).1) →
      yearNumsObjP intP (walkChildren g kvs n).1 := by
  intro kvs
  induction kvs with
  | nil => intro n _ _; exact trivial
  | cons kv rest ih =>
    intro n hy hrec
    rw [hasYearData, List.any_cons, Bool.or_eq_false_iff] at hy
    obtain ⟨k, v⟩ := kv
    cases v with
    | num q =>
      simp only [walkChildren, walk_and_convert]
      refine ⟨?_, trivial, ?_⟩
      · intro q' _ hkey
        exact absurd hkey (by rw [hy.1]; simp)
      · exact ih _ hy.2 (fun k' c' h' m => hrec k' c' (List.mem_cons_of_mem _ h') m)
    | obj c =>
      simp only [walkChildren]
      refine ⟨?_, ?_, ?_⟩
      · intro q' hq' _
        obtain ⟨kvs', hshape⟩ := walk_obj_shape g c n
        rw [hshape] at hq'
        cases hq'
      · exact hrec k c (List.mem_cons_self _ _) n
      · exact ih _ hy.2 (fun k' c' h' m => hrec k' c' (List.mem_cons_of_mem _ h') m)

/-- Every number stored under a year key anywhere in the output of
`walk_and_convert` is an integer (strong induction on the tree size). -/
theorem walk_yearNumsInt :
    ∀ (N : Nat) (v : JVal), sizeOf v ≤ N → ∀ (g : Nat → ℚ) (n : Nat),
      yearNumsP intP (walk_and_convert g v n).1 := by
  intro N
  induction N with
  | zero =>
    intro v hv g n
    cases v with
    | num q => exact trivial
    | obj kvs => simp at hv
  | succ N ih =>
    intro v hv g n
    cases v with
    | num q => exact trivial
    | obj kvs =>
      have hkvs : sizeOf kvs ≤ N := by
        simp only [JVal.obj.sizeOf_spec] at hv
        omega
      have hrec : ∀ k c, (k, JVal.obj c) ∈ kvs → ∀ m,
          yearNumsP intP (walk_and_convert g (JVal.obj c) m).1 := by
        intro k c hm m
        have hlt := List.sizeOf_lt_of_mem hm
        have hpair : sizeOf (k, JVal.obj c) = 1 + sizeOf k + sizeOf (JVal.obj c) := by
          simp
        apply ih (JVal.obj c) (by omega) g m
      by_cases hy : hasYearData kvs = true
      · by_cases hc : hasChildren kvs = true
        · simp only [walk_and_convert, hy, hc, Bool.not_true, Bool.and_false,
            Bool.false_eq_true, if_false, Bool.and_true, if_true]
          show yearNumsObjP intP (walkMixed g _ kvs _).1
          exact walkMixed_yearNums g _ kvs _ hrec
        · have hc' : hasChildren kvs = false := by
            cases hcc : hasChildren kvs
            · rfl
            · exact absurd hcc hc
          simp only [walk_and_convert, hy, hc', Bool.not_false, Bool.and_true, if_true]
          show yearNumsObjP intP (kvs.map (fun kv => (kv.1, scaleEntry _ kv.2)))
          exact scaleMap_yearNums _ kvs hc'
      · have hy' : hasYearData kvs = false := by
          cases hcc : hasYearData kvs
          · rfl
          · exact absurd hcc hy
        simp only [walk_and_convert, hy', Bool.false_and, Bool.false_eq_true, if_false]
        show yearNumsObjP intP (walkChildren g kvs n).1
        exact walkChildren_yearNums g kvs n hy' hrec

/-- Every value kept by `roundedVals` has been passed through `rnd`. -/
theorem roundedVals_allP (P : ℚ → Prop) (rnd : ℚ → ℚ) (hrnd : ∀ q, P (rnd q))
    (years : List String) (vals : List (String × ℚ)) :
    ∀ kv ∈ roundedVals rnd years vals, P kv.2 := by
  have haux : ∀ (l : List String) (acc : List (String × ℚ)),
      (∀ kv ∈ acc, P kv.2) →
      ∀ kv ∈ l.foldl (fun acc yr =>
        match vals.lookup yr with
        | some v => acc ++ [(yr, rnd v)]
        | none => acc) acc, P kv.2 := by
    intro l
    induction l with
    | nil => intro acc hacc; exact hacc
    | cons yr rest ih =>
      intro acc hacc
      rw [List.foldl_cons]
      apply ih
      cases hc : vals.lookup yr with
      | some v =>
        intro kv hkv
        rcases List.mem_append.mp hkv with hkv | hkv
        · exact hacc kv hkv
        · rcases List.mem_singleton.mp hkv with rfl
          exact hrnd v
      | none => exact hacc
  intro kv hkv
  exact haux years [] (by intro kv h; simp at h) kv hkv

/-- The ad hoc segment-type insertion loop of `build_json_gen` preserves
`allNumsObjP`. -/
theorem build_json_gen_inner_allNums (P : ℚ → Prop) (rnd : ℚ → ℚ)
    (hrnd : ∀ q, P (rnd q)) (years : List String) (geo : String) :
    ∀ (recs : List SRec) (d : JObj), allNumsObjP P d →
      allNumsObjP P (recs.foldl (fun d r =>
        if r.segment = "By Region" ∨ r.segment = "By Country" then d
        else
          modifyObj d geo (fun go =>
            let go1 := if hasKey go r.segment then go else go ++ [(r.segment, JVal.obj [])]
            modifyObj go1 r.segment (fun so =>
              setKey so r.subsegment (JVal.obj (ydToObj (roundedVals rnd years r.values))))))
        d) := by
  intro recs
  induction recs with
  | nil => intro d hd; exact hd
  | cons r rest ih =>
    intro d hd
    rw [List.foldl_cons]
    apply ih
    split
    · exact hd
    · refine allNumsObjP_modifyObj P _ _ _ hd ?_
      intro go hgo
      refine allNumsObjP_modifyObj P _ _ _ ?_ ?_
      · split
        · exact hgo
        · exact allNumsObjP_append P _ _ hgo ⟨trivial, trivial⟩
      · intro so hso
        refine allNumsObjP_setKey P _ _ _ hso ?_
        rw [allNumsP_obj]
        exact allNumsObjP_ydToObj P _ (roundedVals_allP P rnd hrnd years r.values)

/-- The `by_region` / `by_country` collection loops preserve
`allNumsObjP`; `name` selects the segment type and `f` renames the
sub-segment key. -/
theorem build_json_gen_block_allNums (P : ℚ → Prop) (rnd : ℚ → ℚ)
    (hrnd : ∀ q, P (rnd q)) (years : List String) (name : String) (f : String → String) :
    ∀ (recs : List SRec) (br : JObj), allNumsObjP P br →
      allNumsObjP P (recs.foldl (fun br r =>
        if r.segment = name then
          setKey br (f r.subsegment) (JVal.obj (ydToObj (roundedVals rnd years r.values)))
        else br) br) := by
  intro recs
  induction recs with
  | nil => intro br hbr; exact hbr
  | cons r rest ih =>
    intro br hbr
    rw [List.foldl_cons]
    apply ih
    split
    · refine allNumsObjP_setKey P _ _ _ hbr ?_
      rw [allNumsP_obj]
      exact allNumsObjP_ydToObj P _ (roundedVals_allP P rnd hrnd years r.values)
    · exact hbr

/-- Folding any step that preserves `allNumsObjP` preserves it. -/
theorem foldl_preserve_allNums {α : Type} (P : ℚ → Prop) (step : JObj → α → JObj)
    (hstep : ∀ d a, allNumsObjP P d → allNumsObjP P (step d a)) :
    ∀ (l : List α) (d : JObj), allNumsObjP P d → allNumsObjP P (l.foldl step d) := by
  intro l
  induction l with
  | nil => intro d hd; exact hd
  | cons a rest ih =>
    intro d hd
    rw [List.foldl_cons]
    exact ih (step d a) (hstep d a hd)

/-- Every number in the output of `build_json_gen rnd` has been passed
through `rnd`. -/
theorem build_json_gen_allNums (P : ℚ → Prop) (rnd : ℚ → ℚ) (hrnd : ∀ q, P (rnd q))
    (records : List SRec) (years : List String) :
    allNumsObjP P (build_json_gen rnd records years) := by
  rw [build_json_gen]
  apply foldl_preserve_allNums P _ ?_ _ _ (show allNumsObjP P [] from trivial)
  intro d geo hd
  cases hlook : (groupByRegion records).lookup geo with
  | none =>
    simp only [hlook]
    exact hd
  | some geo_recs =>
    simp only [hlook]
    have h1 : allNumsObjP P (setKey d geo (JVal.obj [])) :=
      allNumsObjP_setKey P d geo (JVal.obj []) hd trivial
    split
    · split
      · split
        · split
          · exact build_json_gen_inner_allNums P rnd hrnd years geo geo_recs _ h1
          · refine allNumsObjP_modifyObj P _ _ _
              (build_json_gen_inner_allNums P rnd hrnd years geo geo_recs _ h1) ?_
            intro go hgo
            refine allNumsObjP_setKey P _ _ _ hgo ?_
            rw [allNumsP_obj]
            exact build_json_gen_block_allNums P rnd hrnd years "By Region" normalizeLabel
              geo_recs [] trivial
        · exact build_json_gen_inner_allNums P rnd hrnd years geo geo_recs _ h1
      · refine allNumsObjP_modifyObj P _ _ _ ?_ ?_
        · split
          · split
            · exact build_json_gen_inner_allNums P rnd hrnd years geo geo_recs _ h1
            · refine allNumsObjP_modifyObj P _ _ _
                (build_json_gen_inner_allNums P rnd hrnd years geo geo_recs _ h1) ?_
              intro go hgo
              refine allNumsObjP_setKey P _ _ _ hgo ?_
              rw [allNumsP_obj]
              exact build_json_gen_block_allNums P rnd hrnd years "By Region" normalizeLabel
                geo_recs [] trivial
          · exact build_json_gen_inner_allNums P rnd hrnd years geo geo_recs _ h1
        · intro go hgo
          refine allNumsObjP_setKey P _ _ _ hgo ?_
          rw [allNumsP_obj]
          exact build_json_gen_block_allNums P rnd hrnd years "By Country" (fun s => s)
            geo_recs [] trivial
    · split
      · split
        · exact build_json_gen_inner_allNums P rnd hrnd years geo geo_recs _ h1
        · refine allNumsObjP_modifyObj P _ _ _
            (build_json_gen_inner_allNums P rnd hrnd years geo geo_recs _ h1) ?_
          intro go hgo
          refine allNumsObjP_setKey P _ _ _ hgo ?_
          rw [allNumsP_obj]
          exact build_json_gen_block_allNums P rnd hrnd years "By Region" normalizeLabel
            geo_recs [] trivial
      · exact build_json_gen_inner_allNums P rnd hrnd years geo geo_recs _ h1

/-- **C7**: every numeric year value written to a value dataset is rounded
to one decimal place and every numeric year value written to a volume
dataset is rounded to the nearest integer, in both pipelines: (1) rows
extracted by `read_value_sheet` carry only multiples of one tenth; (2) the
indentation hierarchy assembly preserves this into `value.json`; (3) every
year value in the output of the volume walk is an integer; (4) the column
pipeline's `build_json` emits only multiples of one tenth; (5) its
`build_volume_json` emits only integers. -/
theorem claim_c7_rounding :
    (∀ (label : String) (ind : Nat) (cells : Nat → Option ℚ),
       rowRounded (read_value_sheet_row label ind cells)) ∧
    (∀ (rows : List XRow) (o : JObj), (∀ r ∈ rows, rowRounded r) →
       build_json_from_value_sheet rows = .ok o → allNumsObjP tenthP o) ∧
    (∀ (g : Nat → ℚ) (t : JVal) (n : Nat), yearNumsP intP (walk_and_convert g t n).1) ∧
    (∀ (records : List SRec) (years : List String),
       allNumsObjP tenthP (build_json records years)) ∧
    (∀ (records : List SRec) (years : List String),
       allNumsObjP intP (build_volume_json records years)) := by
  refine ⟨?_, ?_, ?_, ?_, ?_⟩
  · intro label ind cells yd hyd kv hkv
    simp only [read_value_sheet_row] at hyd
    split at hyd
    · cases hyd
      exact read_year_data_tenth cells kv hkv
    · exact Option.noConfusion hyd
  · intro rows o hrows hok
    rw [build_json_from_value_sheet] at hok
    cases hpre : prePass rows with
    | error e =>
      rw [hpre] at hok
      exact Except.noConfusion hok
    | ok ch =>
      rw [hpre] at hok
      simp only [Except.map] at hok
      cases hok
      exact foldl_mainStep_allNums tenthP ch rows ⟨[], none, none, none⟩ hrows trivial
  · intro g t n
    exact walk_yearNumsInt (sizeOf t) t le_rfl g n
  · intro records years
    exact build_json_gen_allNums tenthP pyRound1 (fun q => ⟨pyRoundInt (q * 10), rfl⟩)
      records years
  · intro records years
    exact build_json_gen_allNums intP pyRound (fun q => ⟨pyRoundInt q, rfl⟩) records years

/-- Witness for C7 at concrete inputs for each conjunct. -/
theorem claim_c7_witness :
    rowRounded (read_value_sheet_row "S" 2 (fun _ => none)) ∧
    allNumsObjP tenthP
      [("G", JVal.obj [("T", JVal.obj [("S", JVal.obj [("2021", JVal.num ((5 : ℚ)/10))])])])] ∧
    yearNumsP intP (walk_and_convert (fun _ => 0) (JVal.num 1) 0).1 ∧
    allNumsObjP tenthP (build_json [] []) ∧
    allNumsObjP intP (build_volume_json [] []) :=
  ⟨claim_c7_rounding.1 "S" 2 (fun _ => none),
   claim_c7_rounding.2.1 c7Rows
     [("G", JVal.obj [("T", JVal.obj [("S", JVal.obj [("2021", JVal.num ((5 : ℚ)/10))])])])]
     (by
       intro r hr
       simp only [c7Rows, List.mem_cons, List.not_mem_nil, or_false] at hr
       rcases hr with rfl | rfl | rfl
       · intro yd h
         exact Option.noConfusion h
       · intro yd h
         exact Option.noConfusion h
       · intro yd h
         cases h
         intro kv hkv
         rcases List.mem_singleton.mp hkv with rfl
         exact ⟨5, by norm_num⟩
       )
     rfl,
   claim_c7_rounding.2.2.1 (fun _ => 0) (JVal.num 1) 0,
   claim_c7_rounding.2.2.2.1 [] [],
   claim_c7_rounding.2.2.2.2 [] []⟩
